import Mathlib

/-!
Verification of the mind-map editor graph core (flowchart editor):
graph model, cascading delete, descendant traversal, fold engine,
auto-layout tree-width computation, undo/redo history, and JSON save/load.

The Python scene is modelled as explicit lists of node and connection
records; Python object identity (`id(obj)`) is modelled by a numeric
identity field drawn from a fresh-id counter.  Unbounded recursion in the
source is modelled with an explicit fuel parameter; a result of `none`
means the recursion does not complete (Python RecursionError) or an
exception escapes the modelled operation.
-/

/-- Node record: `FlowchartNode` state relevant to the graph operations
(`node_type`, `node_text`, position, `color`, `width`, visibility, the
dynamically attached `is_folded` flag and `children_visibility` snapshot,
and the darkened-brush visual cue set by folding).  The pixel `height`
and image/link attachments are not used by any verified operation and
are omitted. -/
structure FlowchartNode where
  nid : Nat
  nodeType : String
  nodeText : String
  posX : Int
  posY : Int
  color : String
  width : Nat
  visible : Bool
  isFolded : Bool
  childrenVisibility : Option (List (Nat × Bool))
  brushDarkened : Bool
deriving Repr, DecidableEq

/-- Connection record: `FlowchartConnection` with endpoint identities,
color, pen width and visibility. -/
structure FlowchartConnection where
  cid : Nat
  startId : Nat
  endId : Nat
  color : String
  penWidth : Int
  visible : Bool
deriving Repr, DecidableEq

/-- The QGraphicsScene contents: node items, connection items, and a
fresh-identity counter modelling Python object identity. -/
structure Scene where
  nodes : List FlowchartNode
  conns : List FlowchartConnection
  nextId : Nat
deriving Repr, DecidableEq

/-- Look up a node item by identity (Python: scan of `scene.items()`
for the `FlowchartNode` with a given `id(item)`). -/
def Scene.findNode (s : Scene) (i : Nat) : Option FlowchartNode :=
  s.nodes.find? (fun nd => nd.nid == i)

/-- Update the node object with identity `i` (mutation of a Python object
attribute; identities are unique in any reachable scene). -/
def Scene.updateNode (s : Scene) (i : Nat) (f : FlowchartNode → FlowchartNode) : Scene :=
  { s with nodes := s.nodes.map (fun nd => if nd.nid == i then f nd else nd) }

/-- Visibility flag of the node with identity `i`. -/
def visibleOf (s : Scene) (i : Nat) : Option Bool :=
  (s.findNode i).map (fun nd => nd.visible)

/-- Fold flag of the node with identity `i`. -/
def foldedOf (s : Scene) (i : Nat) : Option Bool :=
  (s.findNode i).map (fun nd => nd.isFolded)

/-- `FlowchartNode.get_child_nodes` / `AutoLayoutAlgorithm._get_children`:
scan all connection items whose start node is this node and collect their
end nodes, in scene order. -/
def getChildNodes (s : Scene) (n : Nat) : List Nat :=
  (s.conns.filter (fun c => c.startId == n)).map (fun c => c.endId)

/-- Loop body of `FlowchartNode.getAllChildNodes`: for each connection
item whose start node is this node, append the end node and then extend
with the end node's own recursive result.  `rec` is the recursive call
at one less fuel. -/
def getAllChildNodesAux (rec : Nat → Option (List Nat)) :
    List FlowchartConnection → Nat → Option (List Nat)
  | [], _ => some []
  | c :: cs, n =>
    if c.startId == n then
      match rec c.endId with
      | none => none
      | some sub =>
        match getAllChildNodesAux rec cs n with
        | none => none
        | some rest => some (c.endId :: (sub ++ rest))
    else getAllChildNodesAux rec cs n

/-- `FlowchartNode.getAllChildNodes`: recursive descendant collection with
NO visited set in the source.  The fuel parameter bounds the recursion
depth; `none` models the Python RecursionError reached on any cyclic
graph (the source recursion has no other way to stop on a cycle). -/
def getAllChildNodes : Nat → Scene → Nat → Option (List Nat)
  | 0, _, _ => none
  | fuel + 1, s, n => getAllChildNodesAux (fun m => getAllChildNodes fuel s m) s.conns n

/-- Transitive reachability along connections (start to end), the set of
descendants that `deleteNode` is specified to cascade over. -/
inductive Reaches (s : Scene) : Nat → Nat → Prop where
  | direct (a : Nat) (c : FlowchartConnection) (hc : c ∈ s.conns) (hs : c.startId = a) :
      Reaches s a c.endId
  | step (a b : Nat) (c : FlowchartConnection) (hc : c ∈ s.conns) (hs : c.startId = a)
      (h : Reaches s c.endId b) : Reaches s a b

/-- `FlowchartNode.deleteNode`: after the user confirms, collect this
node's descendants, remove every connection incident to this node or to a
collected descendant, then remove the collected nodes and finally this
node.  `confirm = false` is the user answering No to the dialog (nothing
is deleted); `none` propagates non-termination of `getAllChildNodes`. -/
def deleteNode (confirm : Bool) (fuel : Nat) (s : Scene) (n : Nat) : Option Scene :=
  if !confirm then some s else
  match getAllChildNodes fuel s n with
  | none => none
  | some l =>
    some { s with
      conns := s.conns.filter
        (fun c => decide (¬ (c.startId = n ∨ c.endId = n ∨ c.startId ∈ l ∨ c.endId ∈ l))),
      nodes := s.nodes.filter (fun nd => decide (nd.nid ∉ l ∧ nd.nid ≠ n)) }

/-- A two-node directed cycle: nodes 1 and 2 with connections 1 → 2 and
2 → 1.  Wiring such a cycle is possible in the editor (nothing prevents
it), and the spec explicitly demands cycle-safe traversal. -/
def cycScene : Scene :=
  { nodes :=
      [ { nid := 1, nodeType := "中心主题", nodeText := "A", posX := 0, posY := 0,
          color := "#00b097", width := 120, visible := true, isFolded := false,
          childrenVisibility := none, brushDarkened := false },
        { nid := 2, nodeType := "主要分支", nodeText := "B", posX := 0, posY := 120,
          color := "#87cefa", width := 120, visible := true, isFolded := false,
          childrenVisibility := none, brushDarkened := false } ],
    conns :=
      [ { cid := 3, startId := 1, endId := 2, color := "#123456", penWidth := 2, visible := true },
        { cid := 4, startId := 2, endId := 1, color := "#123456", penWidth := 2, visible := true } ],
    nextId := 5 }

/-- A diamond DAG: 1 → 2, 1 → 3, 2 → 4, 3 → 4.  Node 4 is reachable on
two paths, so the unguarded traversal visits it twice. -/
def diamondScene : Scene :=
  { nodes :=
      [ { nid := 1, nodeType := "中心主题", nodeText := "A", posX := 0, posY := 0,
          color := "#00b097", width := 120, visible := true, isFolded := false,
          childrenVisibility := none, brushDarkened := false },
        { nid := 2, nodeType := "主要分支", nodeText := "B", posX := -100, posY := 120,
          color := "#87cefa", width := 120, visible := true, isFolded := false,
          childrenVisibility := none, brushDarkened := false },
        { nid := 3, nodeType := "主要分支", nodeText := "C", posX := 100, posY := 120,
          color := "#87cefa", width := 120, visible := true, isFolded := false,
          childrenVisibility := none, brushDarkened := false },
        { nid := 4, nodeType := "次要分支", nodeText := "D", posX := 0, posY := 240,
          color := "#ffb6c1", width := 120, visible := true, isFolded := false,
          childrenVisibility := none, brushDarkened := false } ],
    conns :=
      [ { cid := 5, startId := 1, endId := 2, color := "#123456", penWidth := 2, visible := true },
        { cid := 6, startId := 1, endId := 3, color := "#123456", penWidth := 2, visible := true },
        { cid := 7, startId := 2, endId := 4, color := "#123456", penWidth := 2, visible := true },
        { cid := 8, startId := 3, endId := 4, color := "#123456", penWidth := 2, visible := true } ],
    nextId := 9 }

/-- A three-node chain 1 → 2 → 3 used to witness the cascade delete. -/
def chainScene : Scene :=
  { nodes :=
      [ { nid := 1, nodeType := "中心主题", nodeText := "A", posX := 0, posY := 0,
          color := "#00b097", width := 120, visible := true, isFolded := false,
          childrenVisibility := none, brushDarkened := false },
        { nid := 2, nodeType := "主要分支", nodeText := "B", posX := 0, posY := 120,
          color := "#87cefa", width := 120, visible := true, isFolded := false,
          childrenVisibility := none, brushDarkened := false },
        { nid := 3, nodeType := "次要分支", nodeText := "C", posX := 0, posY := 240,
          color := "#ffb6c1", width := 120, visible := true, isFolded := false,
          childrenVisibility := none, brushDarkened := false } ],
    conns :=
      [ { cid := 4, startId := 1, endId := 2, color := "#123456", penWidth := 2, visible := true },
        { cid := 5, startId := 2, endId := 3, color := "#123456", penWidth := 2, visible := true } ],
    nextId := 6 }

theorem getAllChildNodesAux_sound (s : Scene) (fuel : Nat)
    (IH : ∀ m l, getAllChildNodes fuel s m = some l → ∀ x ∈ l, Reaches s m x) :
    ∀ (cs : List FlowchartConnection) (n : Nat) (l : List Nat),
      (∀ c ∈ cs, c ∈ s.conns) →
      getAllChildNodesAux (fun m => getAllChildNodes fuel s m) cs n = some l →
      ∀ x ∈ l, Reaches s n x := by
  intro cs
  induction cs with
  | nil =>
    intro n l _ h x hx
    simp only [getAllChildNodesAux] at h
    cases h
    simp at hx
  | cons c cs ih =>
    intro n l hsub h x hx
    simp only [getAllChildNodesAux] at h
    by_cases hc : c.startId == n
    · rw [if_pos hc] at h
      cases hrec : getAllChildNodes fuel s c.endId with
      | none => rw [hrec] at h; cases h
      | some sub =>
        rw [hrec] at h
        cases hrest : getAllChildNodesAux (fun m => getAllChildNodes fuel s m) cs n with
        | none => rw [hrest] at h; cases h
        | some rest =>
          rw [hrest] at h
          cases h
          have hcmem : c ∈ s.conns := hsub c (List.mem_cons_self c cs)
          have hstart : c.startId = n := by simpa using hc
          rcases List.mem_cons.mp hx with hx1 | hx2
          · subst hx1
            exact Reaches.direct n c hcmem hstart
          · rcases List.mem_append.mp hx2 with hx3 | hx4
            · exact Reaches.step n x c hcmem hstart (IH _ _ hrec x hx3)
            · exact ih n rest (fun d hd => hsub d (List.mem_cons_of_mem c hd)) hrest x hx4
    · rw [if_neg hc] at h
      exact ih n l (fun d hd => hsub d (List.mem_cons_of_mem c hd)) h x hx

theorem getAllChildNodes_sound :
    ∀ (fuel : Nat) (s : Scene) (n : Nat) (l : List Nat),
      getAllChildNodes fuel s n = some l → ∀ x ∈ l, Reaches s n x := by
  intro fuel
  induction fuel with
  | zero => intro s n l h; cases h
  | succ fuel ih =>
    intro s n l h
    exact getAllChildNodesAux_sound s fuel (fun m => ih s m) s.conns n l (fun c hc => hc) h

theorem getAllChildNodesAux_complete (s : Scene) (fuel : Nat) :
    ∀ (cs : List FlowchartConnection) (n : Nat) (l : List Nat),
      getAllChildNodesAux (fun m => getAllChildNodes fuel s m) cs n = some l →
      ∀ c ∈ cs, c.startId = n →
        c.endId ∈ l ∧ ∃ sub, getAllChildNodes fuel s c.endId = some sub ∧ ∀ x ∈ sub, x ∈ l := by
  intro cs
  induction cs with
  | nil => intro n l _ c hc; simp at hc
  | cons d cs ih =>
    intro n l h c hc hcs
    simp only [getAllChildNodesAux] at h
    by_cases hd : d.startId == n
    · rw [if_pos hd] at h
      cases hrec : getAllChildNodes fuel s d.endId with
      | none => rw [hrec] at h; cases h
      | some sub =>
        rw [hrec] at h
        cases hrest : getAllChildNodesAux (fun m => getAllChildNodes fuel s m) cs n with
        | none => rw [hrest] at h; cases h
        | some rest =>
          rw [hrest] at h
          cases h
          rcases List.mem_cons.mp hc with hc1 | hc2
          · subst hc1
            refine ⟨List.mem_cons_self _ _, sub, hrec, ?_⟩
            intro x hx
            exact List.mem_cons_of_mem _ (List.mem_append.mpr (Or.inl hx))
          · rcases ih n rest hrest c hc2 hcs with ⟨hmem, sub2, hsub2, hsubset⟩
            refine ⟨List.mem_cons_of_mem _ (List.mem_append.mpr (Or.inr hmem)), sub2, hsub2, ?_⟩
            intro x hx
            exact List.mem_cons_of_mem _ (List.mem_append.mpr (Or.inr (hsubset x hx)))
    · rw [if_neg hd] at h
      rcases List.mem_cons.mp hc with hc1 | hc2
      · subst hc1; simp at hd; exact absurd hcs hd
      · exact ih n l h c hc2 hcs

theorem getAllChildNodes_complete :
    ∀ (s : Scene) (a x : Nat), Reaches s a x →
      ∀ (fuel : Nat) (l : List Nat), getAllChildNodes fuel s a = some l → x ∈ l := by
  intro s a x h
  induction h with
  | direct a c hc hs =>
    intro fuel l hl
    cases fuel with
    | zero => cases hl
    | succ fuel =>
      simp only [getAllChildNodes] at hl
      exact (getAllChildNodesAux_complete s fuel s.conns a l hl c hc hs).1
  | step a b c hc hs hr ih =>
    intro fuel l hl
    cases fuel with
    | zero => cases hl
    | succ fuel =>
      simp only [getAllChildNodes] at hl
      rcases (getAllChildNodesAux_complete s fuel s.conns a l hl c hc hs).2 with
        ⟨sub, hsub, hsubset⟩
      exact hsubset b (ih fuel sub hsub)

theorem getAllChildNodes_iff_reaches (fuel : Nat) (s : Scene) (n : Nat) (l : List Nat)
    (h : getAllChildNodes fuel s n = some l) : ∀ x, x ∈ l ↔ Reaches s n x := by
  intro x
  constructor
  · exact getAllChildNodes_sound fuel s n l h x
  · intro hr
    exact getAllChildNodes_complete s n x hr fuel l h

/-- Python-dict insertion into an association list: an existing key keeps
its position and gets the new value, a new key is appended. -/
def dictInsert {κ β : Type} [DecidableEq κ] : List (κ × β) → κ → β → List (κ × β)
  | [], k, v => [(k, v)]
  | (k0, v0) :: rest, k, v =>
    if k0 = k then (k0, v) :: rest else (k0, v0) :: dictInsert rest k v

/-- Python-dict lookup (`dict.get`) in an association list. -/
def dictGet {κ β : Type} [DecidableEq κ] : List (κ × β) → κ → Option β
  | [], _ => none
  | (k0, v0) :: rest, k => if k0 = k then some v0 else dictGet rest k

/-- Per-child loop of `KeyboardShortcutManager._collapse_node`: record the
child's current visibility in the snapshot dict, hide the child, and hide
every connection from the folded node to that child. -/
def collapseNodeLoop (n : Nat) : Scene → List (Nat × Bool) → List Nat → Scene × List (Nat × Bool)
  | s, dict, [] => (s, dict)
  | s, dict, child :: rest =>
    let vis := ((s.findNode child).map (fun nd => nd.visible)).getD false
    let dict2 := dictInsert dict child vis
    let s2 := s.updateNode child (fun nd => { nd with visible := false })
    let hiddenConns := s2.conns.map
      (fun c => if c.startId == n && c.endId == child then { c with visible := false } else c)
    collapseNodeLoop n { s2 with conns := hiddenConns } dict2 rest

/-- `KeyboardShortcutManager._collapse_node`: snapshot and hide the given
direct children, hide the connections to them, mark the node folded and
darken its brush. -/
def collapseNode (s : Scene) (n : Nat) (childNodes : List Nat) : Scene :=
  let p := collapseNodeLoop n s [] childNodes
  (p.1.updateNode n (fun nd =>
    { nd with childrenVisibility := some p.2, isFolded := true, brushDarkened := true }))

/-- Per-entry loop of `KeyboardShortcutManager._expand_node`: restore the
child's recorded visibility and set every connection from the node to that
child visible (unconditionally). -/
def expandNodeLoop (n : Nat) : Scene → List (Nat × Bool) → Scene
  | s, [] => s
  | s, (child, wasVisible) :: rest =>
    let s2 := s.updateNode child (fun nd => { nd with visible := wasVisible })
    let shownConns := s2.conns.map
      (fun c => if c.startId == n && c.endId == child then { c with visible := true } else c)
    expandNodeLoop n { s2 with conns := shownConns } rest

/-- `KeyboardShortcutManager._expand_node`: if a visibility snapshot is
attached to the node, restore each recorded child and its incoming
connection from this node; then clear the folded flag and restore the
brush.  The `childNodes` argument is unused in the source as well. -/
def expandNode (s : Scene) (n : Nat) (childNodes : List Nat) : Scene :=
  let _ := childNodes
  let s1 :=
    match (s.findNode n).bind (fun nd => nd.childrenVisibility) with
    | none => s
    | some dict => expandNodeLoop n s dict
  s1.updateNode n (fun nd => { nd with isFolded := false, brushDarkened := false })

/-- `KeyboardShortcutManager._fold_all_levels`: force every descendant
visible and unfolded, collapse only the direct children, then pre-mark
each direct child that itself has children as folded.  Uses the unguarded
`getAllChildNodes`, hence fueled. -/
def foldAllLevels (fuel : Nat) (s : Scene) (n : Nat) : Option Scene :=
  match getAllChildNodes fuel s n with
  | none => none
  | some allDescendants =>
    let s1 := allDescendants.foldl (fun t child =>
      (t.updateNode child (fun nd => { nd with visible := true })).updateNode child
        (fun nd => if nd.isFolded then { nd with isFolded := false } else nd)) s
    let directChildren := getChildNodes s1 n
    let s2 := collapseNode s1 n directChildren
    let s3 := directChildren.foldl (fun t child =>
      if (getChildNodes t child).isEmpty then t
      else t.updateNode child (fun nd => { nd with isFolded := true })) s2
    some s3

/-- Reply to the fold-depth question dialog of
`KeyboardShortcutManager._toggle_fold_node` (Yes = fold all levels,
No = fold one level, Cancel = do nothing). -/
inductive FoldAnswer where
  | yes
  | no
  | cancel
deriving Repr, DecidableEq

/-- `KeyboardShortcutManager._toggle_fold_node`: no-op on a childless
node; on a multi-level expanded node ask the user and either cancel, fold
all levels, or fall through to a one-level fold; otherwise expand if
folded, collapse if not. -/
def toggleFoldNode (fuel : Nat) (answer : FoldAnswer) (s : Scene) (n : Nat) : Option Scene :=
  let childNodes := getChildNodes s n
  if childNodes.isEmpty then some s else
  let isFolded := ((s.findNode n).map (fun nd => nd.isFolded)).getD false
  match getAllChildNodes fuel s n with
  | none => none
  | some allDescendants =>
    if childNodes.length < allDescendants.length && !isFolded then
      match answer with
      | .cancel => some s
      | .yes => foldAllLevels fuel s n
      | .no => some (collapseNode s n childNodes)
    else
      if isFolded then some (expandNode s n childNodes)
      else some (collapseNode s n childNodes)

/-- The C4 scenario graph: root A (1) with children B (2) and C (3),
where B has child D (4); everything initially visible and unfolded. -/
def sceneC4 : Scene :=
  { nodes :=
      [ { nid := 1, nodeType := "中心主题", nodeText := "A", posX := 0, posY := 0,
          color := "#00b097", width := 120, visible := true, isFolded := false,
          childrenVisibility := none, brushDarkened := false },
        { nid := 2, nodeType := "主要分支", nodeText := "B", posX := -100, posY := 120,
          color := "#87cefa", width := 120, visible := true, isFolded := false,
          childrenVisibility := none, brushDarkened := false },
        { nid := 3, nodeType := "主要分支", nodeText := "C", posX := 100, posY := 120,
          color := "#87cefa", width := 120, visible := true, isFolded := false,
          childrenVisibility := none, brushDarkened := false },
        { nid := 4, nodeType := "次要分支", nodeText := "D", posX := -100, posY := 240,
          color := "#ffb6c1", width := 120, visible := true, isFolded := false,
          childrenVisibility := none, brushDarkened := false } ],
    conns :=
      [ { cid := 5, startId := 1, endId := 2, color := "#123456", penWidth := 2, visible := true },
        { cid := 6, startId := 1, endId := 3, color := "#123456", penWidth := 2, visible := true },
        { cid := 7, startId := 2, endId := 4, color := "#123456", penWidth := 2, visible := true } ],
    nextId := 8 }

/-- The C4 scenario run: `foldAllLevels(A)` followed by `toggleFold(A)`
(which, A being folded, expands one level without prompting; the supplied
dialog answer is never consulted on this path). -/
def c4run : Option Scene :=
  (foldAllLevels 10 sceneC4 1).bind (fun s => toggleFoldNode 10 FoldAnswer.cancel s 1)

/-- Connection record stored inside a delete-items history entry
(`start_node_id`, `end_node_id`, `color`; pen width is not recorded). -/
structure DelConnRec where
  startNodeId : Nat
  endNodeId : Nat
  color : String
deriving Repr, DecidableEq

/-- Node record stored inside a delete-items history entry, including the
records of the connections attached to the node at deletion time. -/
structure DelNodeRec where
  nodeId : Nat
  nodeType : String
  nodeText : String
  posX : Int
  posY : Int
  nodeColor : String
  connections : List DelConnRec
deriving Repr, DecidableEq

/-- One item of a delete-items history entry. -/
inductive DelItem where
  | node (r : DelNodeRec)
  | connection (r : DelConnRec)
deriving Repr, DecidableEq

/-- One record of a change-line-style history entry: connection identity,
old style and new style. -/
structure LineStyleRec where
  connectionId : Nat
  oldColor : String
  oldWidth : Int
  newColor : String
  newWidth : Int
deriving Repr, DecidableEq

/-- History record (the dictionaries appended by `addHistory`): tagged by
the `type` field of the source dictionaries. -/
inductive HEntry where
  | addNode (nodeId : Nat) (nodeType : String) (nodeText : String)
      (posX posY : Int) (parentNodeId : Option Nat)
  | deleteItems (items : List DelItem)
  | changeLineStyle (recs : List LineStyleRec)
deriving Repr, DecidableEq

/-- The editor's history state: `self.history` and `self.history_index`
(an `Int`, since the index starts at and returns to -1). -/
structure History where
  entries : List HEntry
  index : Int
deriving Repr, DecidableEq

/-- `self.max_history = 20`. -/
def maxHistory : Nat := 20

/-- Python list slice `l[:k]` for an `Int` bound `k`: a negative bound
counts from the end. -/
def pySlicePrefix (l : List HEntry) (k : Int) : List HEntry :=
  if k < 0 then l.take (l.length - (-k).toNat) else l.take k.toNat

/-- `FlowchartEditor.addHistory`: drop the entries after the current
index when not at the newest state, append the new record, pop the oldest
record if the bound is exceeded, and point the index at the last entry. -/
def addHistory (h : History) (d : HEntry) : History :=
  let entries :=
    if h.index < (h.entries.length : Int) - 1 then pySlicePrefix h.entries (h.index + 1)
    else h.entries
  let entries2 := entries ++ [d]
  let entries3 := if maxHistory < entries2.length then entries2.tail else entries2
  { entries := entries3, index := (entries3.length : Int) - 1 }

/-- Status-bar outcome of an undo/redo call. -/
inductive StatusMsg where
  | nothingToUndo
  | undone
  | nothingToRedo
  | redone
deriving Repr, DecidableEq

/-- `NODE_TYPES[...]["color"].name()`: the fill color assigned to each
node type by the editor's type table (including the extension types);
an unknown type is a Python KeyError in the `FlowchartNode` constructor
(modelled as `none`). -/
def nodeTypeColor : String → Option String
  | "中心主题" => some "#00b097"
  | "主要分支" => some "#87cefa"
  | "次要分支" => some "#ffb6c1"
  | "叶子节点" => some "#d3d3d3"
  | "备注" => some "#ffff99"
  | "菱形" => some "#ffdab9"
  | "六边形" => some "#add8e6"
  | "平行四边形" => some "#98fb98"
  | "文档" => some "#fffacd"
  | "椭圆" => some "#dda0dd"
  | _ => none

/-- `FlowchartNode.__init__` followed by `scene.addItem`: a fresh node
with the type's default color and a width of `max(120, textWidth + 40)`,
where `metricsW` is the QFontMetrics text width (an environment
parameter of the model).  Returns the new node's identity. -/
def mkFlowchartNode (metricsW : String → Nat) (s : Scene) (nodeType nodeText : String)
    (px py : Int) : Option (Scene × Nat) :=
  match nodeTypeColor nodeType with
  | none => none
  | some col =>
    let nd : FlowchartNode :=
      { nid := s.nextId, nodeType := nodeType, nodeText := nodeText, posX := px, posY := py,
        color := col, width := max 120 (metricsW nodeText + 40), visible := true,
        isFolded := false, childrenVisibility := none, brushDarkened := false }
    some ({ s with nodes := s.nodes ++ [nd], nextId := s.nextId + 1 }, nd.nid)

/-- `FlowchartConnection.__init__` derives its color from a Python hash of
the endpoint objects; no verified property depends on it, so it is
abstracted as a fixed name. -/
def connectionCtorColor : String := "#888888"

/-- `FlowchartConnection.__init__` followed by `scene.addItem`: a fresh
connection between two existing node identities (pen width 2 at
construction, then possibly restyled by the caller). -/
def addConnection (s : Scene) (a b : Nat) (col : String) (w : Int) : Scene :=
  let c : FlowchartConnection :=
    { cid := s.nextId, startId := a, endId := b, color := col, penWidth := w, visible := true }
  { s with conns := s.conns ++ [c], nextId := s.nextId + 1 }

/-- First pass of undo(delete-items): recreate the deleted nodes (type,
text, position, then overwrite the color with the recorded one) and build
the dictionary from recorded node identity to recreated node. -/
def undoDeleteItemsNodes (metricsW : String → Nat) :
    Scene → List (Nat × Nat) → List DelItem → Option (Scene × List (Nat × Nat))
  | s, dict, [] => some (s, dict)
  | s, dict, DelItem.node r :: rest =>
    match mkFlowchartNode metricsW s r.nodeType r.nodeText r.posX r.posY with
    | none => none
    | some (s2, newId) =>
      let s3 := s2.updateNode newId (fun nd => { nd with color := r.nodeColor })
      undoDeleteItemsNodes metricsW s3 (dictInsert dict r.nodeId newId) rest
  | s, dict, DelItem.connection _ :: rest => undoDeleteItemsNodes metricsW s dict rest

/-- Second pass of undo(delete-items): recreate connections.  A node
item's recorded connections are recreated only between nodes recreated in
the first pass; a standalone connection item is recreated only if both
recorded identities still exist in the scene.  Both require distinct
endpoints. -/
def undoRestoreConns : Scene → List (Nat × Nat) → List DelItem → Scene
  | s, _, [] => s
  | s, dict, DelItem.node r :: rest =>
    let s2 := r.connections.foldl (fun t cd =>
      match dictGet dict cd.startNodeId, dictGet dict cd.endNodeId with
      | some a, some b => if a ≠ b then addConnection t a b cd.color 2 else t
      | _, _ => t) s
    undoRestoreConns s2 dict rest
  | s, dict, DelItem.connection cd :: rest =>
    let s2 :=
      match s.findNode cd.startNodeId, s.findNode cd.endNodeId with
      | some a, some b => if a.nid ≠ b.nid then addConnection s a.nid b.nid cd.color 2 else s
      | _, _ => s
    undoRestoreConns s2 dict rest

/-- Update the first connection item with the given identity (the source
loops over `scene.items()` and breaks after the first match). -/
def updateFirstConn :
    List FlowchartConnection → Nat → (FlowchartConnection → FlowchartConnection) →
      List FlowchartConnection
  | [], _, _ => []
  | c :: cs, i, f => if c.cid == i then f c :: cs else c :: updateFirstConn cs i f

/-- undo(change-line-style): restore each recorded connection's old color
and width. -/
def undoLineStyles (s : Scene) (recs : List LineStyleRec) : Scene :=
  recs.foldl (fun t r =>
    let cs := updateFirstConn t.conns r.connectionId
      (fun c => { c with color := r.oldColor, penWidth := r.oldWidth })
    { t with conns := cs }) s

/-- redo(change-line-style): re-apply each recorded connection's new
color and width. -/
def redoLineStyles (s : Scene) (recs : List LineStyleRec) : Scene :=
  recs.foldl (fun t r =>
    let cs := updateFirstConn t.conns r.connectionId
      (fun c => { c with color := r.newColor, penWidth := r.newWidth })
    { t with conns := cs }) s

/-- `FlowchartEditor.undo`: below index 0 report "nothing to undo" and
change nothing; otherwise reverse the record at the current index and
decrement the index.  Undoing an add-node record calls `deleteNode` on
the recorded node (confirmation dialog included), so it needs the user's
answer and traversal fuel; `none` models an escaping exception. -/
def undo (metricsW : String → Nat) (confirm : Bool) (fuel : Nat) (s : Scene) (h : History) :
    Option (Scene × History × StatusMsg) :=
  if h.index < 0 then some (s, h, StatusMsg.nothingToUndo) else
  match h.entries.get? h.index.toNat with
  | none => none
  | some d =>
    let s2opt :=
      match d with
      | HEntry.addNode nodeId _ _ _ _ _ =>
        match s.findNode nodeId with
        | some _ => deleteNode confirm fuel s nodeId
        | none => some s
      | HEntry.deleteItems items =>
        match undoDeleteItemsNodes metricsW s [] items with
        | none => none
        | some (s2, dict) => some (undoRestoreConns s2 dict items)
      | HEntry.changeLineStyle recs => some (undoLineStyles s recs)
    match s2opt with
    | none => none
    | some s2 => some (s2, { h with index := h.index - 1 }, StatusMsg.undone)

/-- Remove the first connection item whose recorded endpoint identities
match (redo of a standalone deleted connection; the source breaks after
the first match). -/
def removeFirstConnAux : List FlowchartConnection → Nat → Nat → List FlowchartConnection
  | [], _, _ => []
  | c :: cs, a, b => if c.startId == a && c.endId == b then cs else c :: removeFirstConnAux cs a b

/-- redo(delete-items): delete each recorded node again (cascading, with
confirmation) and remove each recorded standalone connection. -/
def redoDeleteItems (confirm : Bool) (fuel : Nat) : Scene → List DelItem → Option Scene
  | s, [] => some s
  | s, DelItem.node r :: rest =>
    let s1opt :=
      match s.findNode r.nodeId with
      | some _ => deleteNode confirm fuel s r.nodeId
      | none => some s
    match s1opt with
    | none => none
    | some s2 => redoDeleteItems confirm fuel s2 rest
  | s, DelItem.connection cd :: rest =>
    redoDeleteItems confirm fuel
      { s with conns := removeFirstConnAux s.conns cd.startNodeId cd.endNodeId } rest

/-- `FlowchartEditor.redo`: at or past the last record report "nothing to
redo" and change nothing; otherwise increment the index and re-apply the
record now at the index.  Redoing an add-node record constructs a brand
new node object at the recorded type/text/position and, if the recorded
parent identity is still present, a connection from it. -/
def redo (metricsW : String → Nat) (confirm : Bool) (fuel : Nat) (s : Scene) (h : History) :
    Option (Scene × History × StatusMsg) :=
  if (h.entries.length : Int) - 1 ≤ h.index then some (s, h, StatusMsg.nothingToRedo) else
  let h2 : History := { h with index := h.index + 1 }
  match h2.entries.get? h2.index.toNat with
  | none => none
  | some d =>
    match d with
    | HEntry.addNode _ ntype ntext px py parent =>
      match mkFlowchartNode metricsW s ntype ntext px py with
      | none => none
      | some (s2, newId) =>
        let s3 :=
          match parent with
          | none => s2
          | some pid =>
            match s2.findNode pid with
            | some p => addConnection s2 p.nid newId connectionCtorColor 2
            | none => s2
        some (s3, h2, StatusMsg.redone)
    | HEntry.deleteItems items =>
      match redoDeleteItems confirm fuel s items with
      | none => none
      | some s2 => some (s2, h2, StatusMsg.redone)
    | HEntry.changeLineStyle recs => some (redoLineStyles s recs, h2, StatusMsg.redone)

/-- `AutoLayoutAlgorithm.horizontal_spacing = 100`. -/
def horizontalSpacing : Nat := 100

/-- `node.width` of the node object with identity `n`.  In the source the
traversal holds node objects directly, so an endpoint always exists; the
default is never reached on reachable inputs. -/
def widthOf (s : Scene) (n : Nat) : Nat :=
  ((s.findNode n).map (fun nd => nd.width)).getD 0

/-- The generator sum of `_calculate_tree_width` over the children: the
recursive calls run left to right and thread the shared mutable visited
set.  `recW` is the recursive call at one less fuel. -/
def calcChildrenAux (recW : Nat → List Nat → Option (Nat × List Nat)) :
    List Nat → List Nat → Option (Nat × List Nat)
  | [], vis => some (0, vis)
  | c :: cs, vis =>
    match recW c vis with
    | none => none
    | some (w, vis2) =>
      match calcChildrenAux recW cs vis2 with
      | none => none
      | some (tot, vis3) => some (w + tot, vis3)

/-- `AutoLayoutAlgorithm._calculate_tree_width`: a node already in the
visited set contributes its own width; otherwise it is added to the
visited set, a childless node is its own width, and an inner node is the
maximum of its own width and the children's total plus
`horizontal_spacing * (len(children) - 1)` when there are at least two
children.  The unused `level` parameter of the source is omitted; the
fuel bounds recursion depth in the model. -/
def calculateTreeWidth : Nat → Scene → Nat → List Nat → Option (Nat × List Nat)
  | 0, _, _, _ => none
  | fuel + 1, s, n, vis =>
    if n ∈ vis then some (widthOf s n, vis) else
    let vis2 := n :: vis
    let children := getChildNodes s n
    if children.isEmpty then some (widthOf s n, vis2) else
    match calcChildrenAux (fun m v => calculateTreeWidth fuel s m v) children vis2 with
    | none => none
    | some (total, vis3) =>
      let total2 :=
        if 1 < children.length then total + horizontalSpacing * (children.length - 1) else total
      some (max (widthOf s n) total2, vis3)

/-- Spec-side widths of a list of children, one independent recursive
call each (`recW` at one less fuel). -/
def specChildrenWidths (recW : Nat → Option Nat) : List Nat → Option (List Nat)
  | [] => some []
  | c :: cs =>
    match recW c with
    | none => none
    | some w => (specChildrenWidths recW cs).map (fun ws => w :: ws)

/-- Modelled from the spec claim (refinement reference): a node's subtree
width equals its own width when it has no children, and otherwise the
maximum of its own width and the sum of its children's subtree widths
plus the fixed horizontal spacing times (number of children minus one),
by post-order aggregation. -/
def specSubtreeWidth : Nat → Scene → Nat → Option Nat
  | 0, _, _ => none
  | fuel + 1, s, n =>
    let children := getChildNodes s n
    if children.isEmpty then some (widthOf s n) else
    match specChildrenWidths (fun m => specSubtreeWidth fuel s m) children with
    | none => none
    | some ws => some (max (widthOf s n) (ws.sum + horizontalSpacing * (children.length - 1)))

/-- Preorder enumeration of one level of children in the depth-limited
tree unfolding (`recI` at one less fuel). -/
def reachChildrenAux (recI : Nat → Option (List Nat)) : List Nat → Option (List Nat)
  | [] => some []
  | c :: cs =>
    match recI c with
    | none => none
    | some ids => (reachChildrenAux recI cs).map (fun rest => ids ++ rest)

/-- Preorder enumeration of the tree unfolding from `n`: `some` with a
duplicate-free result certifies that the graph below `n` is a finite tree
(every node reached exactly once, no cycles and no sharing). -/
def reachIds : Nat → Scene → Nat → Option (List Nat)
  | 0, _, _ => none
  | fuel + 1, s, n =>
    (reachChildrenAux (fun m => reachIds fuel s m) (getChildNodes s n)).map
      (fun rest => n :: rest)

/-- Layout example: root 1 (width 120) with children 2 (width 200) and
3 (width 50); the tree width is max(120, 200 + 50 + 100) = 350. -/
def layoutScene : Scene :=
  { nodes :=
      [ { nid := 1, nodeType := "中心主题", nodeText := "A", posX := 0, posY := 0,
          color := "#00b097", width := 120, visible := true, isFolded := false,
          childrenVisibility := none, brushDarkened := false },
        { nid := 2, nodeType := "主要分支", nodeText := "B", posX := -100, posY := 120,
          color := "#87cefa", width := 200, visible := true, isFolded := false,
          childrenVisibility := none, brushDarkened := false },
        { nid := 3, nodeType := "主要分支", nodeText := "C", posX := 100, posY := 120,
          color := "#87cefa", width := 50, visible := true, isFolded := false,
          childrenVisibility := none, brushDarkened := false } ],
    conns :=
      [ { cid := 4, startId := 1, endId := 2, color := "#123456", penWidth := 2, visible := true },
        { cid := 5, startId := 1, endId := 3, color := "#123456", penWidth := 2, visible := true } ],
    nextId := 6 }

/-- JSON value.  Floating-point coordinates in the source files are
modelled as integers; every verified property uses only integral data. -/
inductive JValue where
  | jstr (s : String)
  | jnum (n : Int)
  | jarr (xs : List JValue)
  | jobj (fields : List (String × JValue))

mutual
/-- Structural equality of JSON values (Python value equality used for
dictionary keys). -/
def jvalBeq : JValue → JValue → Bool
  | JValue.jstr a, JValue.jstr b => a == b
  | JValue.jnum a, JValue.jnum b => a == b
  | JValue.jarr xs, JValue.jarr ys => jvalBeqList xs ys
  | JValue.jobj xs, JValue.jobj ys => jvalBeqFields xs ys
  | _, _ => false
def jvalBeqList : List JValue → List JValue → Bool
  | [], [] => true
  | x :: xs, y :: ys => jvalBeq x y && jvalBeqList xs ys
  | _, _ => false
def jvalBeqFields : List (String × JValue) → List (String × JValue) → Bool
  | [], [] => true
  | (k1, v1) :: xs, (k2, v2) :: ys => k1 == k2 && jvalBeq v1 v2 && jvalBeqFields xs ys
  | _, _ => false
end

/-- Python-dict lookup in the id-to-node dictionary built by the loader
(keys are arbitrary JSON values). -/
def jdictGet : List (JValue × Nat) → JValue → Option Nat
  | [], _ => none
  | (k0, v0) :: rest, k => if jvalBeq k0 k then some v0 else jdictGet rest k

/-- Python-dict insertion into the id-to-node dictionary. -/
def jdictInsert : List (JValue × Nat) → JValue → Nat → List (JValue × Nat)
  | [], k, v => [(k, v)]
  | (k0, v0) :: rest, k, v =>
    if jvalBeq k0 k then (k0, v) :: rest else (k0, v0) :: jdictInsert rest k v

def jlookupFields : List (String × JValue) → String → Option JValue
  | [], _ => none
  | (k0, v) :: rest, k => if k0 = k then some v else jlookupFields rest k

/-- Dictionary lookup `obj[key]` on a JSON value; `none` models the
Python KeyError (missing key) or TypeError (not a dict). -/
def jlookup : JValue → String → Option JValue
  | JValue.jobj fields, k => jlookupFields fields k
  | _, _ => none

def asNum : JValue → Option Int
  | JValue.jnum n => some n
  | _ => none

def asStr : JValue → Option String
  | JValue.jstr t => some t
  | _ => none

def asArr : JValue → Option (List JValue)
  | JValue.jarr xs => some xs
  | _ => none

/-- One node entry of the saved document. -/
structure SaveNodeRec where
  sid : String
  stype : String
  stext : String
  sx : Int
  sy : Int
  scolor : String
deriving Repr, DecidableEq

/-- One connection entry of the saved document. -/
structure SaveConnRec where
  cstart : String
  cend : String
  ccolor : String
  cwidth : Int
deriving Repr, DecidableEq

/-- The data dictionary assembled by `save_flowchart`. -/
structure SaveDoc where
  nodes : List SaveNodeRec
  connections : List SaveConnRec
deriving Repr, DecidableEq

/-- First pass of `save_flowchart`: assign sequential string ids
(starting at "1") to the node items in scene order, producing the
object-identity-to-id dictionary and the node records. -/
def collectNodeData : List FlowchartNode → Nat → List (Nat × String) × List SaveNodeRec
  | [], _ => ([], [])
  | nd :: rest, k =>
    let newId := k + 1
    let p := collectNodeData rest newId
    ((nd.nid, toString newId) :: p.1,
      { sid := toString newId, stype := nd.nodeType, stext := nd.nodeText,
        sx := nd.posX, sy := nd.posY, scolor := nd.color } :: p.2)

/-- `save_flowchart` (and the identical `FlowchartEditor.saveFlowchart`):
collect every node record, then every connection record whose two
endpoint objects are among the collected nodes. -/
def saveDoc (s : Scene) : SaveDoc :=
  let p := collectNodeData s.nodes 0
  let connRecs := s.conns.filterMap (fun c =>
    match dictGet p.1 c.startId, dictGet p.1 c.endId with
    | some a, some b => some { cstart := a, cend := b, ccolor := c.color, cwidth := c.penWidth }
    | _, _ => none)
  { nodes := p.2, connections := connRecs }

/-- The JSON written by `save_flowchart`: node coordinates under keys
"x"/"y", connection endpoints under "start"/"end". -/
def saveNodeToJson (r : SaveNodeRec) : JValue :=
  JValue.jobj [("id", JValue.jstr r.sid), ("type", JValue.jstr r.stype),
    ("text", JValue.jstr r.stext), ("x", JValue.jnum r.sx), ("y", JValue.jnum r.sy),
    ("color", JValue.jstr r.scolor)]

def saveConnToJson (r : SaveConnRec) : JValue :=
  JValue.jobj [("start", JValue.jstr r.cstart), ("end", JValue.jstr r.cend),
    ("color", JValue.jstr r.ccolor), ("width", JValue.jnum r.cwidth)]

def docToJson (d : SaveDoc) : JValue :=
  JValue.jobj [("nodes", JValue.jarr (d.nodes.map saveNodeToJson)),
    ("connections", JValue.jarr (d.connections.map saveConnToJson))]

/-- Node-building loop of `FlowchartEditor.openFlowchart`: for each entry
read "pos_x"/"pos_y" (numbers), "type"/"text" (strings), construct the
node, optionally override its color, and map the entry's "id" value to
the new node.  A missing key or ill-typed value is an exception: the
loop stops and the caller reports the error, with the scene left as
built so far.  QColor construction is abstracted to the raw string
name. -/
def loadNodesRun (metricsW : String → Nat) :
    Scene → List (JValue × Nat) → List JValue → Scene × Option (List (JValue × Nat))
  | s, dict, [] => (s, some dict)
  | s, dict, jn :: rest =>
    match (jlookup jn "pos_x").bind asNum with
    | none => (s, none)
    | some px =>
      match (jlookup jn "pos_y").bind asNum with
      | none => (s, none)
      | some py =>
        match (jlookup jn "type").bind asStr with
        | none => (s, none)
        | some ty =>
          match (jlookup jn "text").bind asStr with
          | none => (s, none)
          | some tx =>
            match mkFlowchartNode metricsW s ty tx px py with
            | none => (s, none)
            | some (s2, newId) =>
              let s3 :=
                match jlookup jn "color" with
                | some (JValue.jstr c) => s2.updateNode newId (fun nd => { nd with color := c })
                | _ => s2
              match jlookup jn "id" with
              | none => (s3, none)
              | some idv => loadNodesRun metricsW s3 (jdictInsert dict idv newId) rest

/-- Connection-building loop of `openFlowchart`: read "start_id"; only
when its value maps to a loaded node, read "end_id"; when both map,
construct the connection and optionally restyle it ("width" is applied
only when "color" is present, as in the source); an entry with an
unmapped id is skipped.  A missing required key is an exception (the
boolean result is false). -/
def loadConnsRun : Scene → List (JValue × Nat) → List JValue → Scene × Bool
  | s, _, [] => (s, true)
  | s, dict, jc :: rest =>
    match jlookup jc "start_id" with
    | none => (s, false)
    | some sv =>
      match jdictGet dict sv with
      | none => loadConnsRun s dict rest
      | some a =>
        match jlookup jc "end_id" with
        | none => (s, false)
        | some ev =>
          match jdictGet dict ev with
          | none => loadConnsRun s dict rest
          | some b =>
            let style :=
              match jlookup jc "color" with
              | none => some (connectionCtorColor, (2 : Int))
              | some cv =>
                match asStr cv with
                | none => none
                | some c =>
                  match jlookup jc "width" with
                  | none => some (c, (2 : Int))
                  | some wv =>
                    match asNum wv with
                    | none => none
                    | some w => some (c, w)
            match style with
            | none => (s, false)
            | some (col, w) => loadConnsRun (addConnection s a b col w) dict rest

/-- The `try:` body of `FlowchartEditor.openFlowchart` once a file is
chosen: the scene is cleared FIRST, then the file is parsed (`none`
models an I/O or JSON parse error), nodes are built before connections,
and only on full success are the history reset and the modified flag
cleared.  The boolean is true when the single critical error dialog was
shown and the operation aborted. -/
def openFlowchart (metricsW : String → Nat) (prior : Scene) (h : History)
    (file : Option JValue) : Scene × History × Bool :=
  let cleared : Scene := { nodes := [], conns := [], nextId := prior.nextId }
  match file with
  | none => (cleared, h, true)
  | some data =>
    match (jlookup data "nodes").bind asArr with
    | none => (cleared, h, true)
    | some nodeList =>
      match loadNodesRun metricsW cleared [] nodeList with
      | (s1, none) => (s1, h, true)
      | (s1, some dict) =>
        match (jlookup data "connections").bind asArr with
        | none => (s1, h, true)
        | some connList =>
          match loadConnsRun s1 dict connList with
          | (s2, false) => (s2, h, true)
          | (s2, true) => (s2, { entries := [], index := -1 }, false)

/-- A graph with a single center node, for the save/load round trip. -/
def oneNodeScene : Scene :=
  { nodes :=
      [ { nid := 1, nodeType := "中心主题", nodeText := "root", posX := 0, posY := 0,
          color := "#00b097", width := 120, visible := true, isFolded := false,
          childrenVisibility := none, brushDarkened := false } ],
    conns := [], nextId := 2 }

/-- C1 (amended): when the descendant traversal from `n` terminates,
`deleteNode` removes exactly `n`, every node reachable from `n` via
outgoing connections, and every connection whose start or end is a
removed node; every surviving connection references only surviving
nodes. -/
theorem deleteNode_cascade_correct (fuel : Nat) (s : Scene) (n : Nat) (l : List Nat)
    (h : getAllChildNodes fuel s n = some l) :
    ∃ t, deleteNode true fuel s n = some t ∧
      (∀ nd, nd ∈ t.nodes ↔ nd ∈ s.nodes ∧ nd.nid ≠ n ∧ ¬ Reaches s n nd.nid) ∧
      (∀ c, c ∈ t.conns ↔ c ∈ s.conns ∧
        (c.startId ≠ n ∧ ¬ Reaches s n c.startId) ∧ (c.endId ≠ n ∧ ¬ Reaches s n c.endId)) := by
  have hiff := getAllChildNodes_iff_reaches fuel s n l h
  refine ⟨{ s with
      conns := s.conns.filter
        (fun c => decide (¬ (c.startId = n ∨ c.endId = n ∨ c.startId ∈ l ∨ c.endId ∈ l))),
      nodes := s.nodes.filter (fun nd => decide (nd.nid ∉ l ∧ nd.nid ≠ n)) }, ?_, ?_, ?_⟩
  · simp [deleteNode, h]
  · intro nd
    simp only [List.mem_filter, decide_eq_true_eq, hiff nd.nid]
    tauto
  · intro c
    simp only [List.mem_filter, decide_eq_true_eq, hiff c.startId, hiff c.endId]
    tauto

/-- Witness for `deleteNode_cascade_correct` on the chain 1 → 2 → 3. -/
theorem deleteNode_cascade_correct_witness :
    ∃ t, deleteNode true 5 chainScene 1 = some t ∧
      (∀ nd, nd ∈ t.nodes ↔ nd ∈ chainScene.nodes ∧ nd.nid ≠ 1 ∧ ¬ Reaches chainScene 1 nd.nid) ∧
      (∀ c, c ∈ t.conns ↔ c ∈ chainScene.conns ∧
        (c.startId ≠ 1 ∧ ¬ Reaches chainScene 1 c.startId) ∧
        (c.endId ≠ 1 ∧ ¬ Reaches chainScene 1 c.endId)) :=
  deleteNode_cascade_correct 5 chainScene 1 [2, 3] (by decide)

theorem cyc_getAllChildNodes_none : ∀ fuel : Nat,
    getAllChildNodes fuel cycScene 1 = none ∧ getAllChildNodes fuel cycScene 2 = none := by
  intro fuel
  induction fuel with
  | zero => exact ⟨rfl, rfl⟩
  | succ fuel ih =>
    have hconns : cycScene.conns =
        [ { cid := 3, startId := 1, endId := 2, color := "#123456", penWidth := 2, visible := true },
          { cid := 4, startId := 2, endId := 1, color := "#123456", penWidth := 2, visible := true } ] :=
      rfl
    constructor
    · simp [getAllChildNodes, hconns, getAllChildNodesAux, ih.1, ih.2]
    · simp [getAllChildNodes, hconns, getAllChildNodesAux, ih.1, ih.2]

/-- C1 (counterexample): on the two-node cycle, `deleteNode(1)` never
completes at any recursion budget — the source traversal has no visited
set, so the claim's removal behaviour does not occur on this graph state
(Python raises RecursionError before any item is removed), even though
node 1 is present and should have been removed with its descendants. -/
theorem deleteNode_cycle_no_removal :
    (∀ fuel : Nat, deleteNode true fuel cycScene 1 = none) ∧
    (cycScene.findNode 1).isSome = true := by
  refine ⟨fun fuel => ?_, by decide⟩
  simp [deleteNode, (cyc_getAllChildNodes_none fuel).1]

/-- C5: `getAllChildNodes` is NOT cycle-safe: on the two-node cycle it
fails to terminate at every recursion budget, and even on an acyclic
diamond DAG node 4 is revisited (it occurs twice in the result). -/
theorem getAllChildNodes_cycle_diverges_and_revisits :
    (∀ fuel : Nat, getAllChildNodes fuel cycScene 1 = none) ∧
    getAllChildNodes 10 diamondScene 1 = some [2, 4, 3, 4] ∧
    (((getAllChildNodes 10 diamondScene 1).getD []).count 4) = 2 := by
  exact ⟨fun fuel => (cyc_getAllChildNodes_none fuel).1, by decide, by decide⟩

/-- C4 (counterexample): in the scenario graph, after `foldAllLevels(A)`
followed by `toggleFold(A)` (expand one level), grandchild D is still
visible — the claim that D is left hidden is false on the code:
`_collapse_node` hides only direct children, and `_fold_all_levels`
first forces every descendant visible and never re-hides grandchildren. -/
theorem fold_scenario_grandchild_visible :
    (c4run.bind (fun s => visibleOf s 4)) = some true ∧
    (c4run.bind (fun s => visibleOf s 4)) ≠ some false := by
  exact ⟨by decide, by decide⟩

/-- C4 (amended): the scenario run reveals B and C and leaves B
pre-marked folded, but grandchild D remains visible throughout. -/
theorem fold_scenario_behavior :
    (c4run.bind (fun s => visibleOf s 2)) = some true ∧
    (c4run.bind (fun s => visibleOf s 3)) = some true ∧
    (c4run.bind (fun s => foldedOf s 2)) = some true ∧
    (c4run.bind (fun s => visibleOf s 4)) = some true := by
  exact ⟨by decide, by decide, by decide, by decide⟩

theorem pySlicePrefix_length_le (l : List HEntry) (k : Int) :
    (pySlicePrefix l k).length ≤ l.length := by
  unfold pySlicePrefix
  split <;> simp [List.length_take]

set_option maxRecDepth 8000 in
/-- C7: `addHistory` truncates everything after the current index before
appending (the kept prefix is exactly the Python slice `history[:index+1]`),
keeps at most 20 records discarding the oldest first, points the index at
the newly appended record so that an immediate redo reports nothing to
redo, and 25 add-node records starting from the initial state leave
exactly the 20 most recent. -/
theorem addHistory_truncates_caps_and_points_last (h : History) (d : HEntry)
    (hlen : h.entries.length ≤ maxHistory) :
    (addHistory h d).entries =
      (if maxHistory < (pySlicePrefix h.entries (h.index + 1)).length + 1
       then (pySlicePrefix h.entries (h.index + 1) ++ [d]).tail
       else pySlicePrefix h.entries (h.index + 1) ++ [d]) ∧
    (addHistory h d).index = ((addHistory h d).entries.length : Int) - 1 ∧
    (addHistory h d).entries.length ≤ maxHistory ∧
    (∀ (metricsW : String → Nat) (confirm : Bool) (fuel : Nat) (s : Scene),
      redo metricsW confirm fuel s (addHistory h d) =
        some (s, addHistory h d, StatusMsg.nothingToRedo)) ∧
    ((((List.range 25).map (fun i => HEntry.addNode i "主要分支" "n" 0 0 none)).foldl addHistory
        { entries := [], index := -1 }).entries =
      ((List.range 25).map (fun i => HEntry.addNode i "主要分支" "n" 0 0 none)).drop 5) := by
  have key : (if h.index < (h.entries.length : Int) - 1
      then pySlicePrefix h.entries (h.index + 1) else h.entries) =
      pySlicePrefix h.entries (h.index + 1) := by
    by_cases hc : h.index < (h.entries.length : Int) - 1
    · rw [if_pos hc]
    · rw [if_neg hc]
      unfold pySlicePrefix
      have hk : ¬ (h.index + 1 < 0) := by omega
      rw [if_neg hk]
      have hge : h.entries.length ≤ (h.index + 1).toNat := by omega
      exact (List.take_of_length_le hge).symm
  refine ⟨?_, ?_, ?_, ?_, ?_⟩
  · simp only [addHistory, key, List.length_append, List.length_singleton]
  · simp only [addHistory]
  · simp only [addHistory, key]
    have hle := pySlicePrefix_length_le h.entries (h.index + 1)
    by_cases hc : maxHistory < (pySlicePrefix h.entries (h.index + 1) ++ [d]).length
    · rw [if_pos hc]
      simp only [List.length_tail, List.length_append, List.length_singleton]
      omega
    · rw [if_neg hc]
      simp only [List.length_append, List.length_singleton] at hc ⊢
      omega
  · intro metricsW confirm fuel s
    have hidx : (addHistory h d).index = ((addHistory h d).entries.length : Int) - 1 := by
      simp only [addHistory]
    unfold redo
    rw [if_pos (le_of_eq hidx.symm)]
  · decide

/-- Witness for `addHistory_truncates_caps_and_points_last` on a
one-entry history. -/
theorem addHistory_witness :
    ((addHistory { entries := [HEntry.addNode 1 "中心主题" "A" 0 0 none], index := 0 }
        (HEntry.addNode 2 "主要分支" "B" 0 0 none)).entries =
      [HEntry.addNode 1 "中心主题" "A" 0 0 none, HEntry.addNode 2 "主要分支" "B" 0 0 none]) ∧
    ((addHistory { entries := [HEntry.addNode 1 "中心主题" "A" 0 0 none], index := 0 }
        (HEntry.addNode 2 "主要分支" "B" 0 0 none)).index = 1) := by
  have hmain := addHistory_truncates_caps_and_points_last
    { entries := [HEntry.addNode 1 "中心主题" "A" 0 0 none], index := 0 }
    (HEntry.addNode 2 "主要分支" "B" 0 0 none) (by decide)
  refine ⟨?_, ?_⟩
  · rw [hmain.1]; decide
  · rw [hmain.2.1]; rw [hmain.1]; decide

/-- C9: undo below index 0 and redo at the last record raise nothing,
report an informational status, and leave the scene and the history
(entries and index) unchanged. -/
theorem undo_redo_boundary_noop (metricsW : String → Nat) (confirm : Bool) (fuel : Nat)
    (s : Scene) (h : History) :
    (h.index < 0 → undo metricsW confirm fuel s h = some (s, h, StatusMsg.nothingToUndo)) ∧
    (h.index = (h.entries.length : Int) - 1 →
      redo metricsW confirm fuel s h = some (s, h, StatusMsg.nothingToRedo)) := by
  constructor
  · intro hlt
    unfold undo
    rw [if_pos hlt]
  · intro heq
    unfold redo
    rw [if_pos (le_of_eq heq.symm)]

/-- Witness for `undo_redo_boundary_noop` on the initial empty history. -/
theorem undo_redo_boundary_noop_witness :
    undo (fun _ => 0) true 5 chainScene { entries := [], index := -1 } =
      some (chainScene, { entries := [], index := -1 }, StatusMsg.nothingToUndo) ∧
    redo (fun _ => 0) true 5 chainScene { entries := [], index := -1 } =
      some (chainScene, { entries := [], index := -1 }, StatusMsg.nothingToRedo) := by
  exact ⟨(undo_redo_boundary_noop (fun _ => 0) true 5 chainScene
      { entries := [], index := -1 }).1 (by decide),
    (undo_redo_boundary_noop (fun _ => 0) true 5 chainScene
      { entries := [], index := -1 }).2 (by decide)⟩

/-- C8: undoing a recorded add-node action (user confirming the deletion
dialog, descendant traversal terminating) leaves a scene with no node of
the recorded identity, and the subsequent redo restores a node with the
recorded type, text and position. -/
theorem undo_redo_add_node (metricsW : String → Nat) (fuel : Nat) (s : Scene) (h : History)
    (nodeId : Nat) (ntype ntext : String) (px py : Int) (parent : Option Nat)
    (hrec : h.entries.get? h.index.toNat = some (HEntry.addNode nodeId ntype ntext px py parent))
    (hge : 0 ≤ h.index)
    (hfind : (s.findNode nodeId).isSome)
    (l : List Nat) (htrav : getAllChildNodes fuel s nodeId = some l)
    (hcol : (nodeTypeColor ntype).isSome) :
    ∃ s2 h2, undo metricsW true fuel s h = some (s2, h2, StatusMsg.undone) ∧
      (∀ nd ∈ s2.nodes, nd.nid ≠ nodeId) ∧
      ∃ s3 h3, redo metricsW true fuel s2 h2 = some (s3, h3, StatusMsg.redone) ∧
        ∃ nd, nd ∈ s3.nodes ∧ nd.nodeType = ntype ∧ nd.nodeText = ntext ∧
          nd.posX = px ∧ nd.posY = py := by
  obtain ⟨nd0, hnd0⟩ := Option.isSome_iff_exists.mp hfind
  obtain ⟨col, hcol0⟩ := Option.isSome_iff_exists.mp hcol
  have hlen : h.index.toNat < h.entries.length := by
    rcases List.get?_eq_some.mp hrec with ⟨hlt, _⟩
    exact hlt
  set s2 : Scene := { s with
    conns := s.conns.filter
      (fun c => decide (¬ (c.startId = nodeId ∨ c.endId = nodeId ∨
        c.startId ∈ l ∨ c.endId ∈ l))),
    nodes := s.nodes.filter (fun nd => decide (nd.nid ∉ l ∧ nd.nid ≠ nodeId)) } with hs2
  have hdel : deleteNode true fuel s nodeId = some s2 := by
    simp [deleteNode, htrav, hs2]
  have hundo : undo metricsW true fuel s h =
      some (s2, { h with index := h.index - 1 }, StatusMsg.undone) := by
    unfold undo
    rw [if_neg (by omega), hrec]
    simp only [hnd0, hdel]
  refine ⟨s2, { h with index := h.index - 1 }, hundo, ?_, ?_⟩
  · intro nd hnd
    have hmemf := List.mem_filter.mp hnd
    have hprop := of_decide_eq_true hmemf.2
    exact hprop.2
  · set newNd : FlowchartNode :=
      { nid := s2.nextId, nodeType := ntype, nodeText := ntext, posX := px, posY := py,
        color := col, width := max 120 (metricsW ntext + 40), visible := true,
        isFolded := false, childrenVisibility := none, brushDarkened := false } with hnew
    set s3base : Scene := { s2 with nodes := s2.nodes ++ [newNd], nextId := s2.nextId + 1 }
      with hs3base
    have hmk : mkFlowchartNode metricsW s2 ntype ntext px py = some (s3base, s2.nextId) := by
      simp [mkFlowchartNode, hcol0, hnew, hs3base]
    have hmem : newNd ∈ s3base.nodes := by
      rw [hs3base]
      simp
    unfold redo
    have hguard : ¬ (((({ h with index := h.index - 1 } : History).entries.length : Int) - 1) ≤
        ({ h with index := h.index - 1 } : History).index) := by
      simp only []
      omega
    rw [if_neg hguard]
    have hidx2 : (({ h with index := h.index - 1 } : History).index + 1).toNat = h.index.toNat := by
      simp only []
      omega
    simp only [hidx2, hrec, hmk]
    cases parent with
    | none => exact ⟨s3base, _, rfl, newNd, hmem, rfl, rfl, rfl, rfl⟩
    | some pid =>
      refine ⟨_, _, rfl, newNd, ?_, rfl, rfl, rfl, rfl⟩
      cases hfp : s3base.findNode pid <;> simp [hfp, addConnection, hmem]

/-- Witness for `undo_redo_add_node`: undo then redo of the recorded
addition of leaf node C in the chain scene. -/
theorem undo_redo_add_node_witness :
    ∃ s2 h2, undo (fun _ => 0) true 5 chainScene
        { entries := [HEntry.addNode 3 "次要分支" "C" 0 240 none], index := 0 } =
        some (s2, h2, StatusMsg.undone) ∧
      (∀ nd ∈ s2.nodes, nd.nid ≠ 3) ∧
      ∃ s3 h3, redo (fun _ => 0) true 5 s2 h2 = some (s3, h3, StatusMsg.redone) ∧
        ∃ nd, nd ∈ s3.nodes ∧ nd.nodeType = "次要分支" ∧ nd.nodeText = "C" ∧
          nd.posX = 0 ∧ nd.posY = 240 :=
  undo_redo_add_node (fun _ => 0) 5 chainScene
    { entries := [HEntry.addNode 3 "次要分支" "C" 0 240 none], index := 0 }
    3 "次要分支" "C" 0 240 none (by decide) (by decide) (by decide) [] (by decide) (by decide)

theorem calcChildrenAux_spec (s : Scene) (fuel : Nat)
    (IH : ∀ n vis ids, reachIds fuel s n = some ids → ids.Nodup →
      (∀ x ∈ ids, x ∉ vis) →
      ∃ w vis2, calculateTreeWidth fuel s n vis = some (w, vis2) ∧
        specSubtreeWidth fuel s n = some w ∧
        (∀ x, x ∈ vis2 ↔ x ∈ ids ∨ x ∈ vis)) :
    ∀ (cs : List Nat) (vis rest : List Nat),
      reachChildrenAux (fun m => reachIds fuel s m) cs = some rest → rest.Nodup →
      (∀ x ∈ rest, x ∉ vis) →
      ∃ tot vis2 ws, calcChildrenAux (fun m v => calculateTreeWidth fuel s m v) cs vis =
          some (tot, vis2) ∧
        specChildrenWidths (fun m => specSubtreeWidth fuel s m) cs = some ws ∧
        tot = ws.sum ∧ (∀ x, x ∈ vis2 ↔ x ∈ rest ∨ x ∈ vis) := by
  intro cs
  induction cs with
  | nil =>
    intro vis rest h _ _
    simp only [reachChildrenAux] at h
    cases h
    exact ⟨0, vis, [], rfl, rfl, rfl, by simp⟩
  | cons c cs ih =>
    intro vis rest h hnd hdisj
    simp only [reachChildrenAux] at h
    cases hri : reachIds fuel s c with
    | none => rw [hri] at h; cases h
    | some ids =>
      rw [hri] at h
      cases hrc : reachChildrenAux (fun m => reachIds fuel s m) cs with
      | none => rw [hrc] at h; cases h
      | some rest2 =>
        rw [hrc] at h
        simp only [Option.map] at h
        injection h with h
        subst h
        rcases List.nodup_append.mp hnd with ⟨hnd1, hnd2, hdisj12⟩
        have hdisj1 : ∀ x ∈ ids, x ∉ vis :=
          fun x hx => hdisj x (List.mem_append.mpr (Or.inl hx))
        obtain ⟨w, visA, hcalc1, hspec1, hvisA⟩ := IH c vis ids hri hnd1 hdisj1
        have hdisj2 : ∀ x ∈ rest2, x ∉ visA := by
          intro x hx
          rw [hvisA x]
          rintro (hin | hin)
          · exact hdisj12 hin hx
          · exact hdisj x (List.mem_append.mpr (Or.inr hx)) hin
        obtain ⟨tot, visB, ws, hcalc2, hspec2, htot, hvisB⟩ := ih visA rest2 hrc hnd2 hdisj2
        refine ⟨w + tot, visB, w :: ws, ?_, ?_, ?_, ?_⟩
        · simp only [calcChildrenAux, hcalc1, hcalc2]
        · simp only [specChildrenWidths, hspec1, hspec2, Option.map]
        · simp [htot]
        · intro x
          rw [hvisB x, hvisA x]
          simp only [List.mem_append]
          tauto

theorem calculateTreeWidth_spec_general :
    ∀ (fuel : Nat) (s : Scene) (n : Nat) (vis ids : List Nat),
      reachIds fuel s n = some ids → ids.Nodup → (∀ x ∈ ids, x ∉ vis) →
      ∃ w vis2, calculateTreeWidth fuel s n vis = some (w, vis2) ∧
        specSubtreeWidth fuel s n = some w ∧ (∀ x, x ∈ vis2 ↔ x ∈ ids ∨ x ∈ vis) := by
  intro fuel
  induction fuel with
  | zero => intro s n vis ids h; cases h
  | succ fuel ihf =>
    intro s n vis ids h hnd hdisj
    simp only [reachIds] at h
    cases hrc : reachChildrenAux (fun m => reachIds fuel s m) (getChildNodes s n) with
    | none => rw [hrc] at h; cases h
    | some rest =>
      rw [hrc] at h
      simp only [Option.map] at h
      injection h with h
      subst h
      have hn_vis : n ∉ vis := hdisj n (List.mem_cons_self n rest)
      rcases List.nodup_cons.mp hnd with ⟨hnn, hndr⟩
      by_cases hemp : (getChildNodes s n).isEmpty
      · have hnil : getChildNodes s n = [] := by
          simpa using hemp
        rw [hnil] at hrc
        simp only [reachChildrenAux] at hrc
        injection hrc with hrc
        subst hrc
        refine ⟨widthOf s n, n :: vis, ?_, ?_, ?_⟩
        · simp only [calculateTreeWidth]
          rw [if_neg hn_vis, if_pos hemp]
        · simp only [specSubtreeWidth]
          rw [if_pos hemp]
        · intro x
          simp only [List.mem_cons, List.mem_singleton]
          tauto
      · have hdisj2 : ∀ x ∈ rest, x ∉ n :: vis := by
          intro x hx
          simp only [List.mem_cons]
          rintro (hx1 | hx2)
          · exact hnn (hx1 ▸ hx)
          · exact hdisj x (List.mem_cons_of_mem n hx) hx2
        obtain ⟨tot, visB, ws, hcalc2, hspec2, htot, hvisB⟩ :=
          calcChildrenAux_spec s fuel (ihf s) (getChildNodes s n) (n :: vis) rest hrc hndr hdisj2
        have hlenpos : 0 < (getChildNodes s n).length := by
          cases hck : getChildNodes s n with
          | nil => rw [hck] at hemp; simp at hemp
          | cons a as => simp [hck]
        have htot2 :
            (if 1 < (getChildNodes s n).length
             then tot + horizontalSpacing * ((getChildNodes s n).length - 1) else tot) =
            ws.sum + horizontalSpacing * ((getChildNodes s n).length - 1) := by
          by_cases hone : 1 < (getChildNodes s n).length
          · rw [if_pos hone, htot]
          · rw [if_neg hone, htot]
            have : (getChildNodes s n).length = 1 := by omega
            rw [this]
            simp
        refine ⟨max (widthOf s n) (ws.sum + horizontalSpacing * ((getChildNodes s n).length - 1)),
          visB, ?_, ?_, ?_⟩
        · simp only [calculateTreeWidth]
          rw [if_neg hn_vis, if_neg hemp]
          rw [hcalc2]
          simp only [htot2]
        · simp only [specSubtreeWidth]
          rw [if_neg hemp, hspec2]
        · intro x
          rw [hvisB x]
          simp only [List.mem_cons]
          tauto

/-- C6: wherever the graph below a node is a finite tree (certified by a
terminating, duplicate-free preorder enumeration), the width computed by
the layout engine for that node equals the spec-side subtree width: its
own width for a childless node, and otherwise the maximum of its own
width and the sum of the children's subtree widths plus the fixed
horizontal spacing times (number of children minus one). -/
theorem calculateTreeWidth_matches_spec (fuel : Nat) (s : Scene) (n : Nat) (ids : List Nat)
    (h : reachIds fuel s n = some ids) (hnd : ids.Nodup) :
    ∃ w vis2, calculateTreeWidth fuel s n [] = some (w, vis2) ∧
      specSubtreeWidth fuel s n = some w := by
  obtain ⟨w, vis2, hc, hs2, _⟩ :=
    calculateTreeWidth_spec_general fuel s n [] ids h hnd (by simp)
  exact ⟨w, vis2, hc, hs2⟩

/-- Witness for `calculateTreeWidth_matches_spec` on `layoutScene`. -/
theorem calculateTreeWidth_matches_spec_witness :
    ∃ w vis2, calculateTreeWidth 5 layoutScene 1 [] = some (w, vis2) ∧
      specSubtreeWidth 5 layoutScene 1 = some w :=
  calculateTreeWidth_matches_spec 5 layoutScene 1 [1, 2, 3] (by decide) (by decide)

/-- C2: save and open disagree on key names — save writes node
coordinates under "x"/"y" and connection endpoints under "start"/"end",
while the loader reads "pos_x"/"pos_y"/"start_id"/"end_id" — so opening
the file just saved from a one-node graph raises KeyError on the first
node entry: the error dialog is shown, the operation aborts, and the
resulting scene is empty instead of the reconstructed graph. -/
theorem save_then_load_fails (metricsW : String → Nat) (prior : Scene) (h : History) :
    (openFlowchart metricsW prior h (some (docToJson (saveDoc oneNodeScene)))).2.2 = true ∧
    (openFlowchart metricsW prior h (some (docToJson (saveDoc oneNodeScene)))).1.nodes = [] := by
  constructor <;> rfl

/-- C3 (counterexample): a failing load does not leave the in-memory
graph unchanged: the scene is cleared before the file is read, so with a
nonempty prior graph and an I/O or parse error the resulting scene
differs from the prior scene (while the single error dialog is shown). -/
theorem openFlowchart_failure_changes_state :
    (openFlowchart (fun _ => 0) chainScene { entries := [], index := -1 } none).1 ≠ chainScene ∧
    (openFlowchart (fun _ => 0) chainScene { entries := [], index := -1 } none).2.2 = true := by
  constructor
  · decide
  · rfl

/-- C3 (amended): on an I/O or parse error a single error dialog is shown
and the operation aborts with the history unchanged, but the scene has
already been cleared — after a failed load the graph is empty, not the
prior graph. -/
theorem openFlowchart_failure_clears_scene (metricsW : String → Nat) (prior : Scene)
    (h : History) :
    openFlowchart metricsW prior h none =
      ({ nodes := [], conns := [], nextId := prior.nextId }, h, true) := rfl

theorem dictGet_mem {κ β : Type} [DecidableEq κ] :
    ∀ (l : List (κ × β)) (k : κ) (v : β), dictGet l k = some v → (k, v) ∈ l := by
  intro l
  induction l with
  | nil => intro k v h; cases h
  | cons p rest ih =>
    intro k v h
    obtain ⟨k0, v0⟩ := p
    simp only [dictGet] at h
    by_cases hk : k0 = k
    · rw [if_pos hk] at h
      injection h with h
      subst hk
      subst h
      exact List.mem_cons_self _ _
    · rw [if_neg hk] at h
      exact List.mem_cons_of_mem _ (ih k v h)

theorem collectNodeData_mem_sid :
    ∀ (nds : List FlowchartNode) (k : Nat) (a : Nat) (v : String),
      (a, v) ∈ (collectNodeData nds k).1 →
      v ∈ (collectNodeData nds k).2.map SaveNodeRec.sid := by
  intro nds
  induction nds with
  | nil =>
    intro k a v h
    simp only [collectNodeData] at h
    cases h
  | cons nd rest ih =>
    intro k a v h
    simp only [collectNodeData, List.map_cons] at h ⊢
    rcases List.mem_cons.mp h with h1 | h2
    · injection h1 with h1a h1b
      subst h1b
      exact List.mem_cons_self _ _
    · exact List.mem_cons_of_mem _ (ih (k + 1) a v h2)

/-- C10: every connection record written by `save_flowchart` is
self-consistent with the node records written in the same save: its
start and end ids both occur among the saved node ids. -/
theorem saved_connections_reference_saved_nodes (s : Scene) (c : SaveConnRec)
    (hc : c ∈ (saveDoc s).connections) :
    c.cstart ∈ (saveDoc s).nodes.map SaveNodeRec.sid ∧
    c.cend ∈ (saveDoc s).nodes.map SaveNodeRec.sid := by
  simp only [saveDoc] at hc ⊢
  rcases List.mem_filterMap.mp hc with ⟨c0, _, hmatch⟩
  cases hga : dictGet (collectNodeData s.nodes 0).1 c0.startId with
  | none => rw [hga] at hmatch; simp at hmatch
  | some a =>
    cases hgb : dictGet (collectNodeData s.nodes 0).1 c0.endId with
    | none => rw [hga, hgb] at hmatch; simp at hmatch
    | some b =>
      rw [hga, hgb] at hmatch
      injection hmatch with hmatch
      subst hmatch
      constructor
      · exact collectNodeData_mem_sid s.nodes 0 c0.startId a
          (dictGet_mem (collectNodeData s.nodes 0).1 c0.startId a hga)
      · exact collectNodeData_mem_sid s.nodes 0 c0.endId b
          (dictGet_mem (collectNodeData s.nodes 0).1 c0.endId b hgb)

/-- Witness for `saved_connections_reference_saved_nodes` on the chain
scene (its first saved connection). -/
theorem saved_connections_witness :
    ({ cstart := "1", cend := "2", ccolor := "#123456", cwidth := 2 } : SaveConnRec).cstart ∈
        (saveDoc chainScene).nodes.map SaveNodeRec.sid ∧
    ({ cstart := "1", cend := "2", ccolor := "#123456", cwidth := 2 } : SaveConnRec).cend ∈
        (saveDoc chainScene).nodes.map SaveNodeRec.sid :=
  saved_connections_reference_saved_nodes chainScene
    { cstart := "1", cend := "2", ccolor := "#123456", cwidth := 2 } (by decide)
